import Mathlib

/-!
Verification of the request-dispatch core of the `singleware/application`
package (file `source/main.ts`).

The development shallowly embeds the dispatch pipeline of the `Main` class:
the notification hub (`notifyRequest` / `notifyAction`), the guarded handler
invocation (`performHandler`), the filter pass (`performFilters`), the
processor pass (`receiveHandler`), and the lifecycle / configuration state
machine (`addHandler`, `addService`, `addLogger`, `start`, `stop`).

Stateful JavaScript is embedded as explicit state passing over a `Request`
record together with an event trace (`Event`) that records every logger
notification and every user-handler invocation, including the request state
the handler observes.  The external router is treated, as in the source, as
a black box: a dispatch is run against the ordered match sequences the two
routers produce for the request path (`FilterMatch` / `ProcMatch` lists).
-/

namespace Application

/-- Environments (`Aliases.Variables`) are JavaScript objects used as string
maps; they are embedded as insertion-ordered association lists. -/
abbrev Variables := List (String × String)

/-- Property read on an object: first binding of the key wins (an object
holds each key once). -/
def lookupVar : Variables → String → Option String
  | [], _ => none
  | (k, v) :: rest, key => if k = key then some v else lookupVar rest key

/-- Property write on an object: replaces the binding in place when the key
exists, otherwise appends it (JavaScript insertion order). -/
def setVar : Variables → String → String → Variables
  | [], key, val => [(key, val)]
  | (k, v) :: rest, key, val =>
      if k = key then (k, val) :: rest else (k, v) :: setVar rest key val

/-- Applying the spread `{...target, ...src}`: every property of `src` is
written over `target` in order, so `src` wins on key collisions. -/
def spreadInto (target : Variables) (src : Variables) : Variables :=
  src.foldl (fun t p => setVar t p.1 p.2) target

/-- The object literal `{...a, ...b}` (rightmost spread wins collisions). -/
def merge2 (a b : Variables) : Variables :=
  spreadInto (spreadInto [] a) b

/-- The object literal `{...a, ...b, ...c}` (rightmost spread wins
collisions). -/
def merge3 (a b c : Variables) : Variables :=
  spreadInto (spreadInto (spreadInto [] a) b) c

/-- The mutable request envelope threaded through the pipeline.  `localEnv`
embeds `request.environment.local`, `granted` the optional boolean
`request.granted`, and `errorCode` the `error` property of the detail
record (`match.detail` is the request itself, as the routers are given the
request as the detail value). -/
structure Request where
  path : String
  granted : Option Bool
  localEnv : Variables
  errorCode : Option Nat
  deriving DecidableEq

/-- JavaScript truthiness of the optional boolean `request.granted`:
`undefined` and `false` are falsy. -/
def truthy : Option Bool → Bool
  | some b => b
  | none => false

/-- Request notification types (`Types.Request`), together with the invalid
values a caller could pass (`invalid n`). -/
inductive RKind where
  | receive
  | process
  | send
  | error
  | invalid (n : Nat)
  deriving DecidableEq

/-- Whether the `switch` in `notifyRequest` has a case for this kind. -/
def validKind : RKind → Bool
  | RKind.invalid _ => false
  | _ => true

/-- Action notification types (`Types.Action`), together with invalid
values. -/
inductive AKind where
  | start
  | stop
  | invalid (n : Nat)
  deriving DecidableEq

/-- Whether the `switch` in `notifyAction` has a case for this kind. -/
def validAKind : AKind → Bool
  | AKind.invalid _ => false
  | _ => true

/-- Errors thrown by the `Main` class. -/
inductive AppError where
  | typeError (msg : String)
  | configError (msg : String)
  deriving DecidableEq

/-- Observable events of one dispatch: a logger callback receiving a request
snapshot, a logger callback receiving an action notification, and a user
filter / processor method invocation together with the request state it
observes. -/
inductive Event where
  | log (loggerIdx : Nat) (kind : RKind) (snapshot : Request)
  | actLog (loggerIdx : Nat) (kind : AKind)
  | filterRun (routeId : Nat) (observed : Request)
  | procRun (routeId : Nat) (observed : Request)
  deriving DecidableEq

/-- The request snapshot observed by a user handler invocation event, if
the event is one. -/
def runSnapshot : Event → Option Request
  | Event.filterRun _ r => some r
  | Event.procRun _ r => some r
  | _ => none

/-- Route id of a filter-handler invocation event. -/
def filterRunId : Event → Option Nat
  | Event.filterRun i _ => some i
  | _ => none

/-- Route id of a processor-handler invocation event. -/
def procRunId : Event → Option Nat
  | Event.procRun i _ => some i
  | _ => none

/-- The loop body of `notifyRequest`: iterates the registered loggers (in
registration order) and dispatches the frozen snapshot to the logger method
selected by the kind; an unsupported kind throws a `TypeError` at the first
logger reached. -/
def notifyLoop (kind : RKind) (copy : Request) : List Nat → List Event × Option AppError
  | [] => ([], none)
  | l :: rest =>
      if validKind kind then
        let out := notifyLoop kind copy rest
        (Event.log l kind copy :: out.1, out.2)
      else
        ([], some (AppError.typeError "Request type not supported."))

/-- Embeds `Main.notifyRequest`: takes one frozen shallow copy of the
request, then notifies every registered logger with it.  Freezing a shallow
copy of a pure value is the value itself. -/
def notifyRequest (loggers : List Nat) (kind : RKind) (request : Request) :
    List Event × Option AppError :=
  notifyLoop kind request loggers

/-- The loop body of `notifyAction`; an unsupported kind throws a
`TypeError` at the first logger reached. -/
def notifyActionLoop (kind : AKind) : List Nat → List Event × Option AppError
  | [] => ([], none)
  | l :: rest =>
      if validAKind kind then
        let out := notifyActionLoop kind rest
        (Event.actLog l kind :: out.1, out.2)
      else
        ([], some (AppError.typeError "Action type not supported."))

/-- Embeds `Main.notifyAction`. -/
def notifyAction (loggers : List Nat) (kind : AKind) : List Event × Option AppError :=
  notifyActionLoop kind loggers

/-- JavaScript values returned by user handler methods, as far as the
pipeline observes them: the filter callback only tests `result === true`. -/
inductive JSVal where
  | vbool (b : Bool)
  | vundef
  | vother (n : Nat)
  deriving DecidableEq

/-- Behaviour of one user handler method invocation: it either returns a
value (`vundef` for a method returning nothing) or throws an error,
identified by a code. -/
inductive HandlerOutcome where
  | returns (v : JSVal)
  | throws (code : Nat)
  deriving DecidableEq

/-- Embeds `Main.performHandler`: runs the handler method; on a throw the
error is stored on the shared detail record (the request), an `Error`
notification is dispatched to the loggers, and the `finally { return
result }` yields `undefined`.  Returns the produced value, the updated
request, and the emitted events. -/
def performHandler (loggers : List Nat) (outcome : HandlerOutcome) (req : Request) :
    JSVal × Request × List Event :=
  match outcome with
  | HandlerOutcome.returns v => (v, req, [])
  | HandlerOutcome.throws code =>
      let req1 : Request := { req with errorCode := some code }
      let out := notifyRequest loggers RKind.error req1
      (JSVal.vundef, req1, out.1)

/-- One element of the ordered match sequence the filter router yields for
the request path: the route id (identifying handler class and method), the
match variables, and the behaviour of the user filter method. -/
structure FilterMatch where
  id : Nat
  vars : Variables
  outcome : HandlerOutcome
  deriving DecidableEq

/-- One element of the ordered match sequence the processor router yields
for the request path. -/
structure ProcMatch where
  id : Nat
  vars : Variables
  outcome : HandlerOutcome
  deriving DecidableEq

/-- Embeds the `onMatch` callback installed for a filter route by
`addHandler`: runs the user method through `performHandler`, computes
`allows` as `result === true`, and writes `filterHandler(match, allows) &&
allows === true` into `match.detail.granted`.  The protected
`filterHandler` hook (identity by default) is the `hook` parameter.  The
`filterRun` event records the request state the user method observes. -/
def filterOnMatch (loggers : List Nat) (hook : Bool → Bool) (fm : FilterMatch)
    (req : Request) : Request × List Event :=
  let out := performHandler loggers fm.outcome req
  let allows : Bool := out.1 = JSVal.vbool true
  ({ out.2.1 with granted := some (hook allows && allows) },
   Event.filterRun fm.id req :: out.2.2)

/-- Embeds the `onMatch` callback installed for a processor route by
`addHandler`, with the default `processHandler` hook, which immediately
invokes the bound `performHandler` callback. -/
def procOnMatch (loggers : List Nat) (pm : ProcMatch) (req : Request) :
    Request × List Event :=
  let out := performHandler loggers pm.outcome req
  (out.2.1, Event.procRun pm.id req :: out.2.2)

/-- The `while (request.granted && match.length)` loop of `performFilters`:
for each remaining filter match, when the request is still granted, sets
`environment.local` to `{...variables, ...match.variables, ...local}`,
advances the match, and restores the saved `local`. -/
def filtersLoop (loggers : List Nat) (hook : Bool → Bool) (vars loc : Variables) :
    List FilterMatch → Request → Request × List Event
  | [], req => (req, [])
  | fm :: rest, req =>
      if truthy req.granted then
        let req1 : Request := { req with localEnv := merge3 vars fm.vars loc }
        let out1 := filterOnMatch loggers hook fm req1
        let req3 : Request := { out1.1 with localEnv := loc }
        let out2 := filtersLoop loggers hook vars loc rest req3
        (out2.1, out1.2 ++ out2.2)
      else
        (req, [])

/-- Embeds `Main.performFilters`: saves `request.environment.local`, runs
the filter match sequence for the request path, and returns
`request.granted || false` together with the final request state and the
event trace. -/
def performFilters (loggers : List Nat) (hook : Bool → Bool) (fms : List FilterMatch)
    (req : Request) (vars : Variables) : Bool × Request × List Event :=
  let loc := req.localEnv
  let out := filtersLoop loggers hook vars loc fms req
  (truthy out.1.granted, out.1, out.2)

/-- The `while (match.length && (await this.performFilters(request,
match.variables)))` loop of `receiveHandler`: for each remaining processor
match, runs the filter pass seeded with the match variables; when granted,
sets `environment.local` to `{...match.variables, ...local}`, advances the
match, and restores the saved `local`. -/
def procLoop (loggers : List Nat) (hook : Bool → Bool) (fms : List FilterMatch)
    (loc : Variables) : List ProcMatch → Request → Request × List Event
  | [], req => (req, [])
  | pm :: rest, req =>
      let fout := performFilters loggers hook fms req pm.vars
      if fout.1 then
        let req2 : Request := { fout.2.1 with localEnv := merge2 pm.vars loc }
        let pout := procOnMatch loggers pm req2
        let req4 : Request := { pout.1 with localEnv := loc }
        let rout := procLoop loggers hook fms loc rest req4
        (rout.1, fout.2.2 ++ pout.2 ++ rout.2)
      else
        (fout.2.1, fout.2.2)

/-- Embeds `Main.receiveHandler`: notifies the loggers of the receipt, runs
the processor loop, and notifies the loggers of the processing, whatever
way the loop ended. -/
def receiveHandler (loggers : List Nat) (hook : Bool → Bool) (fms : List FilterMatch)
    (pms : List ProcMatch) (req : Request) : Request × List Event :=
  let rout := notifyRequest loggers RKind.receive req
  let loc := req.localEnv
  let lout := procLoop loggers hook fms loc pms req
  let pout := notifyRequest loggers RKind.process lout.1
  (lout.1, rout.1 ++ lout.2 ++ pout.1)

/-- Embeds `Main.sendHandler`. -/
def sendHandler (loggers : List Nat) (req : Request) : List Event × Option AppError :=
  notifyRequest loggers RKind.send req

/-- Embeds `Main.errorHandler`. -/
def errorHandler (loggers : List Nat) (req : Request) : List Event × Option AppError :=
  notifyRequest loggers RKind.error req

/-- Modelled from the spec: the `Request` interface (`source/request.ts`)
and the transport services that construct requests are not part of the
embedded file; per the specification, `request.granted` is seeded `true` by
the caller before the first filter pass.  A freshly received request
therefore carries `granted = some true` and no error. -/
def seededRequest (path : String) (env : Variables) : Request :=
  { path := path, granted := some true, localEnv := env, errorCode := none }

/-- Declarative matching settings of a route (`Action`): the embedding keeps
the fields the pipeline inspects, the path and the optional `exact` flag. -/
structure RouteAction where
  path : String
  exact : Option Bool
  deriving DecidableEq

/-- Route kinds (`Types.Route`). -/
inductive RouteType where
  | filter
  | processor
  deriving DecidableEq

/-- A route registered on a handler class by the `Filter` / `Processor`
decorators. -/
structure Route where
  rtype : RouteType
  action : RouteAction
  method : String
  deriving DecidableEq

/-- Configuration state of the `Main` class: the started flag, the
registered services and loggers (by id, in registration order), and the
actions installed into the filter and processor routers. -/
structure Main where
  started : Bool
  services : List Nat
  loggers : List Nat
  filterTable : List RouteAction
  procTable : List RouteAction
  deriving DecidableEq

/-- The per-route body of `addHandler`: a filter route is added to the
filter router with its action spread unchanged; a processor route is added
to the processor router with `exact` defaulted to `true` when the action
leaves it undefined. -/
def Main.installRoute (app : Main) (route : Route) : Main :=
  match route.rtype with
  | RouteType.filter =>
      { app with filterTable := app.filterTable ++ [route.action] }
  | RouteType.processor =>
      { app with procTable := app.procTable ++
          [{ route.action with exact := some (route.action.exact.getD true) }] }

/-- Embeds `Main.addHandler` on the route list registered for the handler
class: throws a configuration error when the application is started,
otherwise installs every route in order. -/
def Main.addHandler (app : Main) (routes : List Route) : Main × Option AppError :=
  if app.started then
    (app, some (AppError.configError "To add new handlers the application must be stopped."))
  else
    (routes.foldl Main.installRoute app, none)

/-- Embeds `Main.addService`: throws a configuration error when the
application is started, otherwise appends the service instance. -/
def Main.addService (app : Main) (svc : Nat) : Main × Option AppError :=
  if app.started then
    (app, some (AppError.configError "To add new services the application must be stopped."))
  else
    ({ app with services := app.services ++ [svc] }, none)

/-- Embeds `Main.addLogger`: throws a configuration error when the
application is started, otherwise appends the logger instance. -/
def Main.addLogger (app : Main) (lg : Nat) : Main × Option AppError :=
  if app.started then
    (app, some (AppError.configError "To add new loggers service the application must be stopped."))
  else
    ({ app with loggers := app.loggers ++ [lg] }, none)

/-- Embeds `Main.start`: throws when already started; otherwise notifies
the loggers of the start, subscribes and starts every service (external
effects), and marks the application started. -/
def Main.start (app : Main) : Main × List Event × Option AppError :=
  if app.started then
    (app, [], some (AppError.configError "Application was already started."))
  else
    let out := notifyAction app.loggers AKind.start
    ({ app with started := true }, out.1, none)

/-- Embeds `Main.stop`: throws when not started; otherwise stops and
unsubscribes every service (external effects), marks the application
stopped, and then notifies the loggers of the stop. -/
def Main.stop (app : Main) : Main × List Event × Option AppError :=
  if app.started then
    let app1 : Main := { app with started := false }
    let out := notifyAction app1.loggers AKind.stop
    (app1, out.1, none)
  else
    (app, [], some (AppError.configError "Application was not started."))

/-! ### Basic lemmas about the notification hub and the guarded invocation -/

/-- The value `performHandler` hands back to its caller, as a function of the
handler behaviour: the returned value, or `undefined` after a caught throw. -/
def outcomeValue : HandlerOutcome → JSVal
  | HandlerOutcome.returns v => v
  | HandlerOutcome.throws _ => JSVal.vundef

/-- The `allows` boolean the installed filter callback computes:
`result === true`. -/
def allowsOf (o : HandlerOutcome) : Bool :=
  outcomeValue o = JSVal.vbool true

theorem notifyLoop_valid (kind : RKind) (copy : Request) (h : validKind kind = true)
    (ls : List Nat) :
    notifyLoop kind copy ls = (ls.map (fun l => Event.log l kind copy), none) := by
  induction ls with
  | nil => rfl
  | cons l rest ih => simp [notifyLoop, h, ih]

theorem notifyLoop_events (kind : RKind) (copy : Request) (ls : List Nat) :
    ∀ e ∈ (notifyLoop kind copy ls).1, ∃ l, e = Event.log l kind copy := by
  induction ls with
  | nil => intro e he; simp [notifyLoop] at he
  | cons l rest ih =>
      intro e he
      by_cases h : validKind kind = true
      · simp only [notifyLoop, h, if_true, List.mem_cons] at he
        rcases he with he | he
        · exact ⟨l, he⟩
        · exact ih e he
      · simp [notifyLoop, h] at he

theorem performHandler_fst (loggers : List Nat) (o : HandlerOutcome) (req : Request) :
    (performHandler loggers o req).1 = outcomeValue o := by
  cases o <;> rfl

theorem performHandler_granted (loggers : List Nat) (o : HandlerOutcome) (req : Request) :
    (performHandler loggers o req).2.1.granted = req.granted := by
  cases o <;> rfl

theorem performHandler_localEnv (loggers : List Nat) (o : HandlerOutcome) (req : Request) :
    (performHandler loggers o req).2.1.localEnv = req.localEnv := by
  cases o <;> rfl

theorem performHandler_events (loggers : List Nat) (o : HandlerOutcome) (req : Request) :
    ∀ e ∈ (performHandler loggers o req).2.2, runSnapshot e = none := by
  intro e he
  cases o with
  | returns v => simp [performHandler] at he
  | throws c =>
      simp only [performHandler, notifyRequest] at he
      obtain ⟨l, rfl⟩ := notifyLoop_events _ _ _ e he
      rfl

theorem performHandler_no_procRun (loggers : List Nat) (o : HandlerOutcome) (req : Request) :
    (performHandler loggers o req).2.2.filterMap procRunId = [] := by
  rw [List.filterMap_eq_nil_iff]
  intro e he
  cases o with
  | returns v => simp [performHandler] at he
  | throws c =>
      simp only [performHandler, notifyRequest] at he
      obtain ⟨l, rfl⟩ := notifyLoop_events _ _ _ e he
      rfl

theorem filterMap_procRunId_logs (ls : List Nat) (k : RKind) (r : Request) :
    (ls.map (fun l => Event.log l k r)).filterMap procRunId = [] := by
  induction ls with
  | nil => rfl
  | cons l rest ih => simp [procRunId, ih]

/-! ### Lemmas about the installed match callbacks -/

theorem filterOnMatch_granted (loggers : List Nat) (hook : Bool → Bool)
    (fm : FilterMatch) (req : Request) :
    (filterOnMatch loggers hook fm req).1.granted
      = some (hook (allowsOf fm.outcome) && allowsOf fm.outcome) := by
  cases hfm : fm.outcome <;>
    simp [filterOnMatch, performHandler, allowsOf, outcomeValue, hfm]

theorem filterOnMatch_events (loggers : List Nat) (hook : Bool → Bool)
    (fm : FilterMatch) (req : Request) :
    (filterOnMatch loggers hook fm req).2
      = Event.filterRun fm.id req :: (performHandler loggers fm.outcome req).2.2 := rfl

/-! ### Lemmas about the filter pass -/

theorem filtersLoop_not_granted (loggers : List Nat) (hook : Bool → Bool)
    (vars loc : Variables) (fms : List FilterMatch) (req : Request)
    (h : truthy req.granted = false) :
    filtersLoop loggers hook vars loc fms req = (req, []) := by
  cases fms with
  | nil => rfl
  | cons fm rest => simp [filtersLoop, h]

theorem filtersLoop_cons_granted (loggers : List Nat) (hook : Bool → Bool)
    (vars loc : Variables) (fm : FilterMatch) (rest : List FilterMatch) (req : Request)
    (hg : truthy req.granted = true) :
    filtersLoop loggers hook vars loc (fm :: rest) req
      = ((filtersLoop loggers hook vars loc rest
            { (filterOnMatch loggers hook fm
                { req with localEnv := merge3 vars fm.vars loc }).1 with localEnv := loc }).1,
         (filterOnMatch loggers hook fm { req with localEnv := merge3 vars fm.vars loc }).2
           ++ (filtersLoop loggers hook vars loc rest
            { (filterOnMatch loggers hook fm
                { req with localEnv := merge3 vars fm.vars loc }).1 with localEnv := loc }).2) := by
  simp [filtersLoop, hg]

theorem filtersLoop_append (loggers : List Nat) (hook : Bool → Bool)
    (vars loc : Variables) (a b : List FilterMatch) (req : Request) :
    filtersLoop loggers hook vars loc (a ++ b) req
      = ((filtersLoop loggers hook vars loc b (filtersLoop loggers hook vars loc a req).1).1,
         (filtersLoop loggers hook vars loc a req).2
           ++ (filtersLoop loggers hook vars loc b (filtersLoop loggers hook vars loc a req).1).2) := by
  induction a generalizing req with
  | nil => simp [filtersLoop]
  | cons fm rest ih =>
      cases hg : truthy req.granted with
      | false =>
          rw [List.cons_append, filtersLoop_not_granted _ _ _ _ _ _ hg,
              filtersLoop_not_granted _ _ _ _ _ _ hg,
              filtersLoop_not_granted _ _ _ _ _ _ hg]
          rfl
      | true =>
          rw [List.cons_append, filtersLoop_cons_granted _ _ _ _ _ _ _ hg,
              filtersLoop_cons_granted _ _ _ _ _ _ _ hg, ih]
          simp [List.append_assoc]

theorem filtersLoop_localEnv (loggers : List Nat) (hook : Bool → Bool)
    (vars loc : Variables) (fms : List FilterMatch) (req : Request)
    (h : req.localEnv = loc) :
    (filtersLoop loggers hook vars loc fms req).1.localEnv = loc := by
  induction fms generalizing req with
  | nil => simpa [filtersLoop] using h
  | cons fm rest ih =>
      cases hg : truthy req.granted with
      | false => simpa [filtersLoop, hg] using h
      | true =>
          simp only [filtersLoop, hg, if_true]
          exact ih _ rfl

theorem filtersLoop_events (loggers : List Nat) (hook : Bool → Bool)
    (vars loc : Variables) (fms : List FilterMatch) (req : Request) :
    ∀ e ∈ (filtersLoop loggers hook vars loc fms req).2,
      (∃ fm ∈ fms, ∃ r : Request, e = Event.filterRun fm.id r
        ∧ r.localEnv = merge3 vars fm.vars loc ∧ truthy r.granted = true)
      ∨ runSnapshot e = none := by
  induction fms generalizing req with
  | nil => intro e he; simp [filtersLoop] at he
  | cons fm rest ih =>
      intro e he
      cases hg : truthy req.granted with
      | false =>
          rw [filtersLoop_not_granted _ _ _ _ _ _ hg] at he
          simp at he
      | true =>
          simp only [filtersLoop, hg, if_true, filterOnMatch_events, List.cons_append,
            List.mem_append, List.mem_cons] at he
          rcases he with rfl | he | he
          · exact Or.inl ⟨fm, List.mem_cons_self fm rest,
              { req with localEnv := merge3 vars fm.vars loc }, rfl, rfl, hg⟩
          · exact Or.inr (performHandler_events _ _ _ e he)
          · rcases ih _ e he with ⟨fm', hfm', r, he', hr, hgr⟩ | hnone
            · exact Or.inl ⟨fm', List.mem_cons_of_mem fm hfm', r, he', hr, hgr⟩
            · exact Or.inr hnone

theorem performFilters_fst (loggers : List Nat) (hook : Bool → Bool)
    (fms : List FilterMatch) (req : Request) (vars : Variables) :
    (performFilters loggers hook fms req vars).1
      = truthy (performFilters loggers hook fms req vars).2.1.granted := rfl

theorem performFilters_localEnv (loggers : List Nat) (hook : Bool → Bool)
    (fms : List FilterMatch) (req : Request) (vars : Variables) :
    (performFilters loggers hook fms req vars).2.1.localEnv = req.localEnv :=
  filtersLoop_localEnv loggers hook vars req.localEnv fms req rfl

theorem performFilters_events (loggers : List Nat) (hook : Bool → Bool)
    (fms : List FilterMatch) (req : Request) (vars : Variables) :
    ∀ e ∈ (performFilters loggers hook fms req vars).2.2,
      (∃ fm ∈ fms, ∃ r : Request, e = Event.filterRun fm.id r
        ∧ r.localEnv = merge3 vars fm.vars req.localEnv ∧ truthy r.granted = true)
      ∨ runSnapshot e = none :=
  filtersLoop_events loggers hook vars req.localEnv fms req

/-- A filter match whose handler does not produce `true` (it returned another
value, returned nothing, or threw) writes `granted = false`, whatever the
`filterHandler` hook returns, and the filter loop advances no further
match. -/
theorem filtersLoop_deny (loggers : List Nat) (hook : Bool → Bool)
    (vars loc : Variables) (fm : FilterMatch) (fms2 : List FilterMatch)
    (hfm : allowsOf fm.outcome = false) (req : Request) :
    filtersLoop loggers hook vars loc (fm :: fms2) req
      = filtersLoop loggers hook vars loc [fm] req
    ∧ truthy (filtersLoop loggers hook vars loc (fm :: fms2) req).1.granted = false := by
  cases hg : truthy req.granted with
  | false =>
      rw [filtersLoop_not_granted _ _ _ _ _ _ hg, filtersLoop_not_granted _ _ _ _ _ _ hg]
      exact ⟨rfl, hg⟩
  | true =>
      rw [filtersLoop_cons_granted _ _ _ _ _ _ _ hg, filtersLoop_cons_granted _ _ _ _ _ _ _ hg]
      have hden : truthy ({ (filterOnMatch loggers hook fm
          { req with localEnv := merge3 vars fm.vars loc }).1 with localEnv := loc } :
            Request).granted = false := by
        show truthy (filterOnMatch loggers hook fm
          { req with localEnv := merge3 vars fm.vars loc }).1.granted = false
        rw [filterOnMatch_granted, hfm, Bool.and_false]
        rfl
      rw [filtersLoop_not_granted _ _ _ _ _ _ hden, filtersLoop_not_granted _ _ _ _ _ _ hden]
      exact ⟨rfl, hden⟩

/-- The short-circuit property of `performFilters`, stated on an arbitrary
decomposition of the match sequence: a filter whose handler does not produce
`true` makes the pass ignore every later match and return `false`. -/
theorem performFilters_deny (loggers : List Nat) (hook : Bool → Bool)
    (fms1 fms2 : List FilterMatch) (fm : FilterMatch)
    (hfm : allowsOf fm.outcome = false) (req : Request) (vars : Variables) :
    performFilters loggers hook (fms1 ++ fm :: fms2) req vars
      = performFilters loggers hook (fms1 ++ [fm]) req vars
    ∧ (performFilters loggers hook (fms1 ++ fm :: fms2) req vars).1 = false := by
  have key := filtersLoop_deny loggers hook vars req.localEnv fm fms2 hfm
    (filtersLoop loggers hook vars req.localEnv fms1 req).1
  constructor
  · simp only [performFilters]
    rw [filtersLoop_append, filtersLoop_append, key.1]
  · simp only [performFilters]
    rw [filtersLoop_append]
    exact key.2

/-! ### Lemmas about the processor pass -/

theorem procLoop_not_granted (loggers : List Nat) (hook : Bool → Bool)
    (fms : List FilterMatch) (loc : Variables) (pms : List ProcMatch) (req : Request)
    (h : truthy req.granted = false) :
    procLoop loggers hook fms loc pms req = (req, []) := by
  cases pms with
  | nil => rfl
  | cons pm rest =>
      have hf : performFilters loggers hook fms req pm.vars = (false, req, []) := by
        simp only [performFilters, filtersLoop_not_granted _ _ _ _ _ _ h, h]
      simp [procLoop, hf]

theorem procOnMatch_granted (loggers : List Nat) (pm : ProcMatch) (req : Request) :
    (procOnMatch loggers pm req).1.granted = req.granted :=
  performHandler_granted loggers pm.outcome req

theorem procOnMatch_events (loggers : List Nat) (pm : ProcMatch) (req : Request) :
    (procOnMatch loggers pm req).2
      = Event.procRun pm.id req :: (performHandler loggers pm.outcome req).2.2 := rfl

theorem performFilters_nil (loggers : List Nat) (hook : Bool → Bool)
    (req : Request) (vars : Variables) :
    performFilters loggers hook [] req vars = (truthy req.granted, req, []) := rfl

theorem procLoop_cons (loggers : List Nat) (hook : Bool → Bool) (fms : List FilterMatch)
    (loc : Variables) (pm : ProcMatch) (rest : List ProcMatch) (req : Request) :
    procLoop loggers hook fms loc (pm :: rest) req
      = if (performFilters loggers hook fms req pm.vars).1 then
          ((procLoop loggers hook fms loc rest
             { (procOnMatch loggers pm
                 { (performFilters loggers hook fms req pm.vars).2.1 with
                     localEnv := merge2 pm.vars loc }).1 with localEnv := loc }).1,
           (performFilters loggers hook fms req pm.vars).2.2
             ++ (procOnMatch loggers pm
                 { (performFilters loggers hook fms req pm.vars).2.1 with
                     localEnv := merge2 pm.vars loc }).2
             ++ (procLoop loggers hook fms loc rest
               { (procOnMatch loggers pm
                   { (performFilters loggers hook fms req pm.vars).2.1 with
                       localEnv := merge2 pm.vars loc }).1 with localEnv := loc }).2)
        else ((performFilters loggers hook fms req pm.vars).2.1,
              (performFilters loggers hook fms req pm.vars).2.2) := rfl

theorem procLoop_localEnv (loggers : List Nat) (hook : Bool → Bool)
    (fms : List FilterMatch) (loc : Variables) (pms : List ProcMatch) (req : Request)
    (h : req.localEnv = loc) :
    (procLoop loggers hook fms loc pms req).1.localEnv = loc := by
  induction pms generalizing req with
  | nil => simpa [procLoop] using h
  | cons pm rest ih =>
      rw [procLoop_cons]
      cases hf : (performFilters loggers hook fms req pm.vars).1 with
      | false => simpa using (performFilters_localEnv loggers hook fms req pm.vars).trans h
      | true =>
          simp only [if_pos]
          exact ih _ rfl

theorem procLoop_events (loggers : List Nat) (hook : Bool → Bool)
    (fms : List FilterMatch) (loc : Variables) (pms : List ProcMatch) (req : Request)
    (h : req.localEnv = loc) :
    ∀ e ∈ (procLoop loggers hook fms loc pms req).2,
      (∃ pm ∈ pms, ∃ r : Request, e = Event.procRun pm.id r
        ∧ r.localEnv = merge2 pm.vars loc ∧ truthy r.granted = true)
      ∨ (∃ pm ∈ pms, ∃ fm ∈ fms, ∃ r : Request, e = Event.filterRun fm.id r
        ∧ r.localEnv = merge3 pm.vars fm.vars loc ∧ truthy r.granted = true)
      ∨ runSnapshot e = none := by
  induction pms generalizing req with
  | nil => intro e he; simp [procLoop] at he
  | cons pm rest ih =>
      intro e he
      rw [procLoop_cons] at he
      have hfilters : ∀ e ∈ (performFilters loggers hook fms req pm.vars).2.2,
          (∃ pm' ∈ pm :: rest, ∃ fm ∈ fms, ∃ r : Request, e = Event.filterRun fm.id r
            ∧ r.localEnv = merge3 pm'.vars fm.vars loc ∧ truthy r.granted = true)
          ∨ runSnapshot e = none := by
        intro e' he'
        rcases performFilters_events loggers hook fms req pm.vars e' he' with
          ⟨fm, hfm, r, he'', hr, hgr⟩ | hnone
        · exact Or.inl ⟨pm, List.mem_cons_self pm rest, fm, hfm, r, he'', by rw [hr, h], hgr⟩
        · exact Or.inr hnone
      cases hf : (performFilters loggers hook fms req pm.vars).1 with
      | false =>
          rw [hf] at he
          simp only [if_neg Bool.false_ne_true] at he
          rcases hfilters e he with hfilter | hnone
          · exact Or.inr (Or.inl hfilter)
          · exact Or.inr (Or.inr hnone)
      | true =>
          rw [hf] at he
          simp only [if_pos, procOnMatch_events, List.mem_append, List.mem_cons] at he
          rcases he with (he | rfl | he) | he
          · rcases hfilters e he with hfilter | hnone
            · exact Or.inr (Or.inl hfilter)
            · exact Or.inr (Or.inr hnone)
          · refine Or.inl ⟨pm, List.mem_cons_self pm rest,
              { (performFilters loggers hook fms req pm.vars).2.1 with
                  localEnv := merge2 pm.vars loc }, rfl, rfl, ?_⟩
            show truthy (performFilters loggers hook fms req pm.vars).2.1.granted = true
            rw [← performFilters_fst]
            exact hf
          · exact Or.inr (Or.inr (performHandler_events _ _ _ e he))
          · rcases ih _ rfl e he with ⟨pm', hpm', r, he', hr, hgr⟩ | hrest
            · exact Or.inl ⟨pm', List.mem_cons_of_mem pm hpm', r, he', hr, hgr⟩
            · rcases hrest with ⟨pm', hpm', rest'⟩ | hnone
              · exact Or.inr (Or.inl ⟨pm', List.mem_cons_of_mem pm hpm', rest'⟩)
              · exact Or.inr (Or.inr hnone)

theorem procLoop_nil_filters (loggers : List Nat) (hook : Bool → Bool)
    (loc : Variables) (pms : List ProcMatch) (req : Request)
    (h : req.granted = some true) :
    (procLoop loggers hook [] loc pms req).2.filterMap procRunId = pms.map (fun pm => pm.id)
    ∧ (procLoop loggers hook [] loc pms req).1.granted = some true := by
  induction pms generalizing req with
  | nil => simpa [procLoop] using h
  | cons pm rest ih =>
      have hg4 : ((procOnMatch loggers pm
          { req with localEnv := merge2 pm.vars loc }).1).granted = some true := by
        rw [procOnMatch_granted]
        exact h
      have key := ih { (procOnMatch loggers pm
          { req with localEnv := merge2 pm.vars loc }).1 with localEnv := loc } hg4
      rw [procLoop_cons, performFilters_nil, h]
      simp only [truthy, if_pos, procOnMatch_events, List.filterMap_append,
        List.filterMap_cons, List.nil_append, List.map_cons, procRunId]
      refine ⟨?_, key.2⟩
      rw [performHandler_no_procRun, key.1]
      simp

theorem receiveHandler_def (loggers : List Nat) (hook : Bool → Bool)
    (fms : List FilterMatch) (pms : List ProcMatch) (req : Request) :
    receiveHandler loggers hook fms pms req
      = ((procLoop loggers hook fms req.localEnv pms req).1,
         loggers.map (fun l => Event.log l RKind.receive req)
           ++ (procLoop loggers hook fms req.localEnv pms req).2
           ++ loggers.map (fun l => Event.log l RKind.process
                (procLoop loggers hook fms req.localEnv pms req).1)) := by
  simp only [receiveHandler, notifyRequest,
    notifyLoop_valid RKind.receive req rfl,
    notifyLoop_valid RKind.process (procLoop loggers hook fms req.localEnv pms req).1 rfl]

/-! ### Lemmas about the environment merge -/

theorem lookupVar_setVar_self (t : Variables) (k : String) (v : String) :
    lookupVar (setVar t k v) k = some v := by
  induction t with
  | nil => simp [setVar, lookupVar]
  | cons p rest ih =>
      by_cases h : p.1 = k
      · simp [setVar, lookupVar, h]
      · simp [setVar, lookupVar, h, ih]

theorem lookupVar_setVar_of_ne (t : Variables) (k' k : String) (v : String)
    (h : k' ≠ k) :
    lookupVar (setVar t k' v) k = lookupVar t k := by
  induction t with
  | nil => simp [setVar, lookupVar, h]
  | cons p rest ih =>
      by_cases hp : p.1 = k'
      · simp [setVar, lookupVar, hp, h]
      · simp [setVar, lookupVar, hp, ih]

theorem lookupVar_spreadInto_of_not_mem (s : Variables) (k : String)
    (h : k ∉ s.map Prod.fst) (t : Variables) :
    lookupVar (spreadInto t s) k = lookupVar t k := by
  induction s generalizing t with
  | nil => rfl
  | cons p rest ih =>
      simp only [List.map_cons, List.mem_cons] at h
      push_neg at h
      show lookupVar (spreadInto (setVar t p.1 p.2) rest) k = lookupVar t k
      rw [ih h.2, lookupVar_setVar_of_ne _ _ _ _ (fun hk => h.1 hk.symm)]

theorem lookupVar_spreadInto_of_nodup (s : Variables) (k : String) (v : String)
    (hnd : (s.map Prod.fst).Nodup) (hl : lookupVar s k = some v) (t : Variables) :
    lookupVar (spreadInto t s) k = some v := by
  induction s generalizing t with
  | nil => simp [lookupVar] at hl
  | cons p rest ih =>
      simp only [List.map_cons, List.nodup_cons] at hnd
      show lookupVar (spreadInto (setVar t p.1 p.2) rest) k = some v
      by_cases hp : p.1 = k
      · have hv : v = p.2 := by
          rw [show lookupVar (p :: rest) k = some p.2 by simp [lookupVar, hp]] at hl
          exact (Option.some_inj.mp hl).symm
        rw [lookupVar_spreadInto_of_not_mem rest k (hp ▸ hnd.1), hv, hp,
          lookupVar_setVar_self]
      · have hl' : lookupVar rest k = some v := by
          rw [show lookupVar (p :: rest) k = lookupVar rest k by simp [lookupVar, hp]] at hl
          exact hl
        exact ih hnd.2 hl' _

/-- The original local environment wins every key collision in the merge the
pipeline installs around a match. -/
theorem lookupVar_merge3_right (a b c : Variables) (k : String) (v : String)
    (hnd : (c.map Prod.fst).Nodup) (hl : lookupVar c k = some v) :
    lookupVar (merge3 a b c) k = some v :=
  lookupVar_spreadInto_of_nodup c k v hnd hl _

/-! ### The claims -/

/-- C1: Filter short-circuit.  For every request and every decomposition of
the filter match sequence around a match `fm` whose handler returned
`false`, whatever the `filterHandler` hook does: `performFilters` behaves
exactly as if the later filter matches were absent (no further filter match
is advanced), it returns `false`, and the processor match under
consideration in `receiveHandler` is never advanced — the loop stops with
only the filter-pass trace, which contains no processor invocation. -/
theorem C1_filter_short_circuit (loggers : List Nat) (hook : Bool → Bool)
    (fms1 fms2 : List FilterMatch) (fm : FilterMatch)
    (hout : fm.outcome = HandlerOutcome.returns (JSVal.vbool false)) :
    (∀ req vars, performFilters loggers hook (fms1 ++ fm :: fms2) req vars
        = performFilters loggers hook (fms1 ++ [fm]) req vars)
    ∧ (∀ req vars, (performFilters loggers hook (fms1 ++ fm :: fms2) req vars).1 = false)
    ∧ (∀ loc pm pms req, procLoop loggers hook (fms1 ++ fm :: fms2) loc (pm :: pms) req
        = ((performFilters loggers hook (fms1 ++ fm :: fms2) req pm.vars).2.1,
           (performFilters loggers hook (fms1 ++ fm :: fms2) req pm.vars).2.2))
    ∧ (∀ req vars i r,
        Event.procRun i r ∉ (performFilters loggers hook (fms1 ++ fm :: fms2) req vars).2.2) := by
  have hal : allowsOf fm.outcome = false := by rw [hout]; rfl
  refine ⟨fun req vars => (performFilters_deny loggers hook fms1 fms2 fm hal req vars).1,
          fun req vars => (performFilters_deny loggers hook fms1 fms2 fm hal req vars).2,
          fun loc pm pms req => ?_, fun req vars i r hmem => ?_⟩
  · rw [procLoop_cons, (performFilters_deny loggers hook fms1 fms2 fm hal req pm.vars).2]
    simp
  · rcases performFilters_events loggers hook _ req vars _ hmem with
      ⟨fm', _, r', he, _, _⟩ | hnone
    · exact absurd he (by simp)
    · simp [runSnapshot] at hnone

/-- Witness for C1 at a concrete two-filter sequence whose first filter
returns `false`. -/
theorem C1_filter_short_circuit_witness :
    (performFilters [0] (fun b => b)
        [⟨1, [], HandlerOutcome.returns (JSVal.vbool false)⟩,
         ⟨2, [], HandlerOutcome.returns (JSVal.vbool true)⟩]
        { path := "/a", granted := some true, localEnv := [], errorCode := none } []).1
      = false :=
  (C1_filter_short_circuit [0] (fun b => b) []
      [⟨2, [], HandlerOutcome.returns (JSVal.vbool true)⟩]
      ⟨1, [], HandlerOutcome.returns (JSVal.vbool false)⟩ rfl).2.1
    { path := "/a", granted := some true, localEnv := [], errorCode := none } []

/-- C2: Default-granted on zero filters.  `performFilters` on an empty
filter match sequence returns `request.granted || false` and leaves the
request untouched; a request seeded `granted = true` (per the spec, the
caller seeds it before the first pass) therefore passes the empty filter
pass, and `receiveHandler` advances every matching processor: the processor
invocations in the trace are exactly the processor match ids in order. -/
theorem C2_default_granted (loggers : List Nat) (hook : Bool → Bool)
    (pms : List ProcMatch) (path : String) (env : Variables) :
    (∀ req vars, performFilters loggers hook [] req vars = (truthy req.granted, req, []))
    ∧ (∀ vars, (performFilters loggers hook [] (seededRequest path env) vars).1 = true)
    ∧ ((receiveHandler loggers hook [] pms (seededRequest path env)).2.filterMap procRunId
        = pms.map (fun pm => pm.id)) := by
  refine ⟨fun req vars => performFilters_nil loggers hook req vars, fun vars => rfl, ?_⟩
  rw [receiveHandler_def]
  simp only [List.filterMap_append, filterMap_procRunId_logs,
    (procLoop_nil_filters loggers hook (seededRequest path env).localEnv pms
      (seededRequest path env) rfl).1]
  simp

/-- C3: Local-environment scoping and restoration.  After a full dispatch
the request's local environment is exactly the original one; every advanced
processor match observed exactly `{...match.variables, ...local}` and every
advanced filter match observed exactly `{...seedVariables,
...match.variables, ...local}` built over the caller's original local
environment (so nothing leaks between sibling matches); and in those merges
the original environment's bindings win every key collision. -/
theorem C3_local_env_scoping (loggers : List Nat) (hook : Bool → Bool)
    (fms : List FilterMatch) (pms : List ProcMatch) (req : Request) :
    ((receiveHandler loggers hook fms pms req).1.localEnv = req.localEnv)
    ∧ (∀ i r, Event.procRun i r ∈ (receiveHandler loggers hook fms pms req).2 →
        ∃ pm ∈ pms, i = pm.id ∧ r.localEnv = merge2 pm.vars req.localEnv)
    ∧ (∀ i r, Event.filterRun i r ∈ (receiveHandler loggers hook fms pms req).2 →
        ∃ pm ∈ pms, ∃ fm ∈ fms, i = fm.id
          ∧ r.localEnv = merge3 pm.vars fm.vars req.localEnv)
    ∧ (∀ a b k v, (req.localEnv.map Prod.fst).Nodup → lookupVar req.localEnv k = some v →
        lookupVar (merge3 a b req.localEnv) k = some v) := by
  rw [receiveHandler_def]
  refine ⟨procLoop_localEnv loggers hook fms req.localEnv pms req rfl, ?_, ?_, ?_⟩
  · intro i r hmem
    rcases List.mem_append.mp hmem with h1 | h1
    · rcases List.mem_append.mp h1 with h2 | h2
      · obtain ⟨l, -, hlog⟩ := List.mem_map.mp h2
        exact absurd hlog (by simp)
      · rcases procLoop_events loggers hook fms req.localEnv pms req rfl _ h2 with
          ⟨pm, hpm, r', he, hr, _⟩ | ⟨pm, _, fm, _, r', he, _, _⟩ | hnone
        · simp only [Event.procRun.injEq] at he
          exact ⟨pm, hpm, he.1, he.2 ▸ hr⟩
        · exact absurd he (by simp)
        · exact absurd hnone (by simp [runSnapshot])
    · obtain ⟨l, -, hlog⟩ := List.mem_map.mp h1
      exact absurd hlog (by simp)
  · intro i r hmem
    rcases List.mem_append.mp hmem with h1 | h1
    · rcases List.mem_append.mp h1 with h2 | h2
      · obtain ⟨l, -, hlog⟩ := List.mem_map.mp h2
        exact absurd hlog (by simp)
      · rcases procLoop_events loggers hook fms req.localEnv pms req rfl _ h2 with
          ⟨pm, _, r', he, _, _⟩ | ⟨pm, hpm, fm, hfm, r', he, hr, _⟩ | hnone
        · exact absurd he (by simp)
        · simp only [Event.filterRun.injEq] at he
          exact ⟨pm, hpm, fm, hfm, he.1, he.2 ▸ hr⟩
        · exact absurd hnone (by simp [runSnapshot])
    · obtain ⟨l, -, hlog⟩ := List.mem_map.mp h1
      exact absurd hlog (by simp)
  · intro a b k v hnd hl
    exact lookupVar_merge3_right a b req.localEnv k v hnd hl

/-- Witness for C3: with original local environment `{k: v}`, the merge
installed around a match maps `k` to `v` even when the seed and the match
variables collide on `k`. -/
theorem C3_local_env_scoping_witness :
    lookupVar (merge3 [("x", "1")] [("k", "2")] [("k", "v")]) "k" = some "v" :=
  (C3_local_env_scoping [0] (fun b => b) [] []
      { path := "/a", granted := some true, localEnv := [("k", "v")],
        errorCode := none }).2.2.2
    [("x", "1")] [("k", "2")] "k" "v" (by decide) (by decide)

/-- C4: Configuration errors iff wrong state.  `addHandler`, `addService`
and `addLogger` fail (with a configuration error) exactly when the
application is started, `start` fails exactly when already started, `stop`
fails exactly when not started, and every such failure leaves the
application state unchanged. -/
theorem C4_lifecycle_errors (app : Main) (routes : List Route) (svc lg : Nat) :
    ((app.addHandler routes).2.isSome ↔ app.started = true)
    ∧ ((app.addService svc).2.isSome ↔ app.started = true)
    ∧ ((app.addLogger lg).2.isSome ↔ app.started = true)
    ∧ (app.start.2.2.isSome ↔ app.started = true)
    ∧ (app.stop.2.2.isSome ↔ app.started = false)
    ∧ (∀ e, (app.addHandler routes).2 = some e → ∃ m, e = AppError.configError m)
    ∧ (∀ e, (app.addService svc).2 = some e → ∃ m, e = AppError.configError m)
    ∧ (∀ e, (app.addLogger lg).2 = some e → ∃ m, e = AppError.configError m)
    ∧ (∀ e, app.start.2.2 = some e → ∃ m, e = AppError.configError m)
    ∧ (∀ e, app.stop.2.2 = some e → ∃ m, e = AppError.configError m)
    ∧ ((app.addHandler routes).2.isSome → (app.addHandler routes).1 = app)
    ∧ ((app.addService svc).2.isSome → (app.addService svc).1 = app)
    ∧ ((app.addLogger lg).2.isSome → (app.addLogger lg).1 = app)
    ∧ (app.start.2.2.isSome → app.start.1 = app)
    ∧ (app.stop.2.2.isSome → app.stop.1 = app) := by
  cases h : app.started <;>
    simp [Main.addHandler, Main.addService, Main.addLogger, Main.start, Main.stop, h]

/-- Witness for C4: a failing `addHandler` on a started application leaves
the state unchanged. -/
theorem C4_lifecycle_errors_witness :
    (Main.addHandler ⟨true, [], [], [], []⟩ []).1 = (⟨true, [], [], [], []⟩ : Main) :=
  (C4_lifecycle_errors ⟨true, [], [], [], []⟩ [] 0 0).2.2.2.2.2.2.2.2.2.2.1 (by decide)

/-- Counterexample to C5 as stated: with two matching filters whose first
handler throws, the dispatch loop enclosing the invocation (the filter
loop) does not complete for the remaining matches — only the throwing
filter (route id 1) is ever invoked and the remaining filter (route id 2)
is skipped, because the caught throw yields `allows = false`. -/
theorem C5_counterexample :
    ((performFilters [0] (fun b => b)
        [⟨1, [], HandlerOutcome.throws 7⟩,
         ⟨2, [], HandlerOutcome.returns (JSVal.vbool true)⟩]
        { path := "/a", granted := some true, localEnv := [], errorCode := none }
        []).2.2.filterMap filterRunId) = [1] := by decide

/-- C5 (amended): Handler-error isolation.  A throwing handler stores the
error on the shared detail record, triggers exactly one `Error`
notification per registered logger carrying that detail, and
`performHandler` returns `undefined`; the enclosing processor loop
continues and completes for all remaining processor matches; a throwing
filter handler, however, yields `allows = false`, so the filter pass denies
and skips the remaining filter matches, exactly as a filter returning
`false` would. -/
theorem C5_handler_error_isolation (loggers : List Nat) (hook : Bool → Bool)
    (code : Nat) (req : Request) :
    (performHandler loggers (HandlerOutcome.throws code) req
      = (JSVal.vundef, { req with errorCode := some code },
         loggers.map (fun l => Event.log l RKind.error { req with errorCode := some code })))
    ∧ (∀ pmId pmVars pms loc, req.granted = some true →
        (procLoop loggers hook [] loc
            (⟨pmId, pmVars, HandlerOutcome.throws code⟩ :: pms) req).2.filterMap procRunId
          = pmId :: pms.map (fun pm => pm.id))
    ∧ (∀ fms1 fms2 fmId fmVars req2 vars,
        performFilters loggers hook
            (fms1 ++ ⟨fmId, fmVars, HandlerOutcome.throws code⟩ :: fms2) req2 vars
          = performFilters loggers hook
              (fms1 ++ [⟨fmId, fmVars, HandlerOutcome.throws code⟩]) req2 vars
        ∧ (performFilters loggers hook
            (fms1 ++ ⟨fmId, fmVars, HandlerOutcome.throws code⟩ :: fms2) req2 vars).1
              = false) := by
  refine ⟨?_, ?_, ?_⟩
  · show (JSVal.vundef, { req with errorCode := some code },
      (notifyRequest loggers RKind.error { req with errorCode := some code }).1) = _
    rw [notifyRequest, notifyLoop_valid RKind.error { req with errorCode := some code } rfl]
  · intro pmId pmVars pms loc h
    exact (procLoop_nil_filters loggers hook loc
      (⟨pmId, pmVars, HandlerOutcome.throws code⟩ :: pms) req h).1
  · intro fms1 fms2 fmId fmVars req2 vars
    exact performFilters_deny loggers hook fms1 fms2
      ⟨fmId, fmVars, HandlerOutcome.throws code⟩ rfl req2 vars

/-- Witness for C5 (amended): a single throwing processor is still advanced
and the loop completes. -/
theorem C5_handler_error_isolation_witness :
    ((procLoop [0] (fun b => b) [] []
        [⟨3, [], HandlerOutcome.throws 7⟩]
        { path := "/a", granted := some true, localEnv := [],
          errorCode := none }).2.filterMap procRunId) = [3] :=
  (C5_handler_error_isolation [0] (fun b => b) 7
      { path := "/a", granted := some true, localEnv := [], errorCode := none }).2.1
    3 [] [] [] rfl

/-- C6: Exact-match defaulting in `addHandler`: a processor route whose
action leaves `exact` undefined is installed with `exact = true`; one with
`exact` declared keeps the declared value; a filter route's action is
installed unchanged. -/
theorem C6_exact_defaulting (app : Main) (r : Route) (h : app.started = false) :
    (r.rtype = RouteType.processor → r.action.exact = none →
        (app.addHandler [r]).1.procTable
          = app.procTable ++ [{ r.action with exact := some true }]
        ∧ (app.addHandler [r]).1.filterTable = app.filterTable)
    ∧ (∀ b, r.rtype = RouteType.processor → r.action.exact = some b →
        (app.addHandler [r]).1.procTable
          = app.procTable ++ [{ r.action with exact := some b }]
        ∧ (app.addHandler [r]).1.filterTable = app.filterTable)
    ∧ (r.rtype = RouteType.filter →
        (app.addHandler [r]).1.filterTable = app.filterTable ++ [r.action]
        ∧ (app.addHandler [r]).1.procTable = app.procTable) := by
  refine ⟨fun ht hex => ?_, fun b ht hex => ?_, fun ht => ?_⟩
  · constructor <;> simp [Main.addHandler, h, Main.installRoute, ht, hex]
  · constructor <;> simp [Main.addHandler, h, Main.installRoute, ht, hex]
  · constructor <;> simp [Main.addHandler, h, Main.installRoute, ht]

/-- Witness for C6: a processor route with undefined `exact` is installed
with `exact = true`. -/
theorem C6_exact_defaulting_witness :
    (Main.addHandler ⟨false, [], [], [], []⟩
        [⟨RouteType.processor, ⟨"/a", none⟩, "m"⟩]).1.procTable
      = [⟨"/a", some true⟩] :=
  ((C6_exact_defaulting ⟨false, [], [], [], []⟩
      ⟨RouteType.processor, ⟨"/a", none⟩, "m"⟩ rfl).1 rfl rfl).1

/-- C7: Receive/Process notification ordering and unconditionality: the
dispatch trace is exactly the Receive notifications to all loggers, then
the processor-loop trace, then the Process notifications to all loggers —
whatever way the loop ended; the Receive prefix contains no handler
invocation, so every filter or processor handler runs after the Receive
notifications, and the Process notifications fire even when the loop was
cut short by a denial. -/
theorem C7_notification_order (loggers : List Nat) (hook : Bool → Bool)
    (fms : List FilterMatch) (pms : List ProcMatch) (req : Request) :
    ((receiveHandler loggers hook fms pms req).2
      = loggers.map (fun l => Event.log l RKind.receive req)
        ++ (procLoop loggers hook fms req.localEnv pms req).2
        ++ loggers.map (fun l => Event.log l RKind.process
              (procLoop loggers hook fms req.localEnv pms req).1))
    ∧ (∀ e ∈ loggers.map (fun l => Event.log l RKind.receive req), runSnapshot e = none)
    ∧ (∀ e ∈ loggers.map (fun l => Event.log l RKind.process
          (procLoop loggers hook fms req.localEnv pms req).1), runSnapshot e = none) := by
  refine ⟨by rw [receiveHandler_def], ?_, ?_⟩ <;>
    · intro e he
      obtain ⟨l, -, rfl⟩ := List.mem_map.mp he
      rfl

/-- Witness for C7 at a concrete logger and request. -/
theorem C7_notification_order_witness :
    runSnapshot (Event.log 0 RKind.receive
      { path := "/a", granted := some true, localEnv := [], errorCode := none }) = none :=
  (C7_notification_order [0] (fun b => b) [] []
      { path := "/a", granted := some true, localEnv := [], errorCode := none }).2.1
    (Event.log 0 RKind.receive
      { path := "/a", granted := some true, localEnv := [], errorCode := none })
    (by decide)

/-- C8: Granted monotonicity: every filter or processor handler invocation
in a dispatch observes a request whose `granted` is still truthy — once a
filter leaves `granted` false no later handler runs at all (so none could
widen it), and a request that enters with falsy `granted` triggers no
handler invocation and is returned unchanged. -/
theorem C8_granted_monotone (loggers : List Nat) (hook : Bool → Bool)
    (fms : List FilterMatch) (pms : List ProcMatch) (req : Request) :
    (∀ e ∈ (receiveHandler loggers hook fms pms req).2, ∀ r,
        runSnapshot e = some r → truthy r.granted = true)
    ∧ (truthy req.granted = false →
        (receiveHandler loggers hook fms pms req).1 = req
        ∧ ∀ e ∈ (receiveHandler loggers hook fms pms req).2, runSnapshot e = none) := by
  rw [receiveHandler_def]
  constructor
  · intro e he r hr
    rcases List.mem_append.mp he with h1 | h1
    · rcases List.mem_append.mp h1 with h2 | h2
      · obtain ⟨l, -, rfl⟩ := List.mem_map.mp h2
        simp [runSnapshot] at hr
      · rcases procLoop_events loggers hook fms req.localEnv pms req rfl _ h2 with
          ⟨pm, _, r', he', _, hgr⟩ | ⟨pm, _, fm, _, r', he', _, hgr⟩ | hnone
        · subst he'
          simp only [runSnapshot, Option.some_inj] at hr
          subst hr
          exact hgr
        · subst he'
          simp only [runSnapshot, Option.some_inj] at hr
          subst hr
          exact hgr
        · rw [hnone] at hr
          cases hr
    · obtain ⟨l, -, rfl⟩ := List.mem_map.mp h1
      simp [runSnapshot] at hr
  · intro hg
    rw [procLoop_not_granted _ _ _ _ _ _ hg]
    refine ⟨rfl, ?_⟩
    intro e he
    rcases List.mem_append.mp he with h1 | h1
    · rcases List.mem_append.mp h1 with h2 | h2
      · obtain ⟨l, -, rfl⟩ := List.mem_map.mp h2
        rfl
      · exact absurd h2 (by simp)
    · obtain ⟨l, -, rfl⟩ := List.mem_map.mp h1
      rfl

/-- Witness for C8: a request entering with `granted = undefined` (falsy)
passes through the whole dispatch unchanged. -/
theorem C8_granted_monotone_witness :
    (receiveHandler [0] (fun b => b) []
        [⟨2, [], HandlerOutcome.returns JSVal.vundef⟩]
        { path := "/a", granted := none, localEnv := [], errorCode := none }).1
      = { path := "/a", granted := none, localEnv := [], errorCode := none } :=
  ((C8_granted_monotone [0] (fun b => b) []
      [⟨2, [], HandlerOutcome.returns JSVal.vundef⟩]
      { path := "/a", granted := none, localEnv := [], errorCode := none }).2 rfl).1

/-- Counterexample to C9 as stated: with zero registered loggers,
`notifyRequest` called with an invalid kind returns normally — the
invalid-kind check sits inside the per-logger loop, so no error is
raised. -/
theorem C9_counterexample :
    notifyRequest [] (RKind.invalid 9)
      { path := "/a", granted := some true, localEnv := [], errorCode := none }
      = ([], none) := rfl

/-- C9 (amended): with at least one registered logger, `notifyRequest`
called with any kind other than Receive, Process, Send or Error fails with
an invalid-kind type error (with zero loggers it returns normally, see the
implicit claim on empty logger lists); for a valid kind it dispatches one
frozen shallow snapshot of the request to each registered logger in
registration order. -/
theorem C9_notify_dispatch (loggers : List Nat) (kind : RKind) (req : Request) :
    (validKind kind = false → loggers ≠ [] →
        notifyRequest loggers kind req
          = ([], some (AppError.typeError "Request type not supported.")))
    ∧ (validKind kind = true →
        notifyRequest loggers kind req
          = (loggers.map (fun l => Event.log l kind req), none)) := by
  constructor
  · intro hk hne
    cases loggers with
    | nil => exact absurd rfl hne
    | cons l rest => simp [notifyRequest, notifyLoop, hk]
  · intro hk
    exact notifyLoop_valid kind req hk loggers

/-- Witness for C9 (amended): one registered logger and an invalid kind
produce the type error. -/
theorem C9_notify_dispatch_witness :
    notifyRequest [0] (RKind.invalid 5)
      { path := "/a", granted := some true, localEnv := [], errorCode := none }
      = ([], some (AppError.typeError "Request type not supported.")) :=
  (C9_notify_dispatch [0] (RKind.invalid 5)
      { path := "/a", granted := some true, localEnv := [], errorCode := none }).1
    rfl (by decide)

/-- C10: with zero registered loggers, `notifyRequest` and `notifyAction`
return normally for every kind value — valid or invalid — emitting no
events and raising no error, because the invalid-kind check runs once per
registered logger inside the dispatch loop. -/
theorem C10_zero_loggers (kind : RKind) (akind : AKind) (req : Request) :
    notifyRequest [] kind req = ([], none) ∧ notifyAction [] akind = ([], none) :=
  ⟨rfl, rfl⟩

end Application
